import Mathlib

/-!
Verification of the `eznve` hardware-encoder wrapper (`src/include/eznve.hpp`)
against its natural-language specification.

The repository ships only the class interface: the bodies of
`encoder::submit_frame`, `encoder::flush`, the constructor and the destructor
are declared in the header but their translation unit is not among the
sources.  Definitions for those operations are therefore modelled from the
spec (each such definition says so in its doc comment); everything that does
appear in the header — the data members, the inline accessors, `set_callback`,
`pbuf_as`, the defaulted move operations — is embedded directly from the
source.

Machine integers are modelled as `Nat` with an explicit `% 2 ^ w` where the
C++ type can wrap (`frames_encoded : uint32_t`, `bytes_encoded : size_t`);
the `double` accessors `fps()` and `time()` are modelled over `ℚ` (exact real
arithmetic in place of IEEE doubles, which the spec marks as advisory only).
Opaque native handles (`CUdeviceptr`, the three `void*` handles, the callback
slot) are modelled as numeric identities.
-/

namespace eznve

/-- `enum class codec` (eznve.hpp lines 14-17). -/
inductive codec
| h264
| hevc
deriving DecidableEq, Repr

/-- `enum class frame_flag` (eznve.hpp lines 19-22). -/
inductive frame_flag
| none
| idr
deriving DecidableEq, Repr

/-- `struct chunk_info` (eznve.hpp lines 24-29): the `std::span<const char>
data` view is modelled by its byte length, the remaining fields are the
`uint32_t index` and `uint64_t timestamp`/`duration` of the source. -/
structure chunk_info where
  dataLen : Nat
  index : Nat
  timestamp : Nat
  duration : Nat
deriving DecidableEq, Repr

/-- The private state of `class encoder` (eznve.hpp lines 94-117), one field
per data member, in declaration order.  `data_cb` is the identity of the
installed `std::move_only_function` callback (`0` = empty); `pbuf` is the
`std::unique_ptr` to the 2048-byte scratch allocation, `none` when null
(e.g. after being moved from); the raw handles (`CUdeviceptr input_buffer`,
`void* in_registration`, `void* out_stream`, `void* session`) are numeric,
`0` playing `nullptr`; `bytes_encoded : std::size_t` and
`frames_encoded : std::uint32_t` hold the counter values. -/
structure EncoderState where
  data_cb : Nat
  pbuf : Option Nat
  input_buffer : Nat
  dims : Nat × Nat
  fps_ : Nat × Nat
  in_registration : Nat
  out_stream : Nat
  session : Nat
  bytes_encoded : Nat
  frames_encoded : Nat
deriving DecidableEq, Repr

/-! ### Const accessors (eznve.hpp lines 47-87)

Each const member function is embedded as `EncoderState → value × EncoderState`:
the returned state is the faithful translation of a body that contains no
assignment, so the pair's second component is the receiver itself. -/

/-- `buffer()` (lines 47-49): returns `input_buffer`. -/
def buffer (s : EncoderState) : Nat × EncoderState := (s.input_buffer, s)

/-- `width()` (lines 52-54): returns `dims.x`. -/
def width (s : EncoderState) : Nat × EncoderState := (s.dims.1, s)

/-- `height()` (lines 56-59): returns `dims.y`. -/
def height (s : EncoderState) : Nat × EncoderState := (s.dims.2, s)

/-- `fps()` (lines 64-66): returns `double(fps_.x)/fps_.y`, modelled over `ℚ`
(the source comments that this is only a rough estimate). -/
def fps (s : EncoderState) : ℚ × EncoderState :=
  ((s.fps_.1 : ℚ) / (s.fps_.2 : ℚ), s)

/-- `fps_exact()` (lines 68-70): returns the `uint2 fps_` pair. -/
def fps_exact (s : EncoderState) : (Nat × Nat) × EncoderState := (s.fps_, s)

/-- `total_bytes()` (lines 74-76): returns `bytes_encoded`. -/
def total_bytes (s : EncoderState) : Nat × EncoderState := (s.bytes_encoded, s)

/-- `total_frames()` (lines 80-82): returns `frames_encoded`. -/
def total_frames (s : EncoderState) : Nat × EncoderState := (s.frames_encoded, s)

/-- `time()` (lines 85-87): returns `total_frames() / fps()`, modelled over
`ℚ`. -/
def time (s : EncoderState) : ℚ × EncoderState :=
  (((total_frames s).1 : ℚ) / (fps s).1, s)

/-- `set_callback(cb)` (lines 90-92): `data_cb = std::move(cb)` — single-slot
overwrite of the callback member. -/
def set_callback (cb : Nat) (s : EncoderState) : EncoderState :=
  { s with data_cb := cb }

/-! ### Scratch-buffer marshalling (eznve.hpp lines 98-105) -/

/-- `param_buffer_t = std::array<std::byte, 2048>` (line 98): the byte size of
the scratch allocation behind `pbuf`. -/
def param_buffer_size : Nat := 2048

/-- `pbuf_as<T>()` (lines 101-105) at byte level: `memset(pbuf->data(), 0,
sizeof(T))` writes zero to every offset below `sizeof(T)` and leaves the rest
of the storage untouched; the function then reinterprets the storage as `T`,
so the bytes of the returned structure are exactly offsets `0..sizeof(T)-1`
of this result. -/
def pbuf_as_bytes (sizeofT : Nat) (buf : Nat → Nat) : Nat → Nat :=
  fun i => if i < sizeofT then 0 else buf i

/-- The byte offsets written by the `memset` in `pbuf_as<T>` (lines 101-105):
the call is unguarded, so offsets `0..sizeof(T)-1` are written whatever
`sizeof(T)` is. -/
def memset_offsets (sizeofT : Nat) : List Nat := List.range sizeofT

/-! ### Submit / flush semantics

`bool encoder::submit_frame(frame_flag)` and `bool encoder::flush()` are
declared at eznve.hpp lines 44-45 but their bodies are not in the repository
sources, so they are modelled from the spec.  The hardware is an oracle:
whether it accepts the call, and which completed bitstream payloads (byte
lengths) it hands back, are inputs of the model. -/

/-- One callback invocation: the chunk delivery path hands a completed payload
of `len` bytes to the callback whose identity is `cb`. -/
structure Delivery where
  cb : Nat
  len : Nat
deriving DecidableEq, Repr

/-- Modelled from the spec: the chunk delivery path (§4.3, body not in the
repository sources) — for each completed payload, invoke the active callback
exactly once, synchronously, and add the chunk's byte length to the running
byte counter (`bytes_encoded` is a `std::size_t`, hence the `% 2 ^ 64`). -/
def deliverChunks (payloads : List Nat) (s : EncoderState) :
    List Delivery × EncoderState :=
  match payloads with
  | [] => ([], s)
  | len :: rest =>
      let s1 := { s with bytes_encoded := (s.bytes_encoded + len) % 2 ^ 64 }
      (⟨s.data_cb, len⟩ :: (deliverChunks rest s1).1, (deliverChunks rest s1).2)

/-- Modelled from the spec: `encoder::submit_frame` (declared eznve.hpp line
44, body not in the repository sources).  §4.2: issues one encode operation,
tagging the frame `idr` when asked; when the hardware accepts, the frame
counter (`std::uint32_t`, hence `% 2 ^ 32`) increments by exactly one after
acceptance and zero-or-more completed chunks are delivered synchronously via
the chunk delivery path; when the hardware rejects, the call returns `false`,
counters are left unchanged and the session stays open.  Returns
(return value, callback invocations, state after). -/
def submit_frame (accepted : Bool) (flag : frame_flag) (payloads : List Nat)
    (s : EncoderState) : Bool × List Delivery × EncoderState :=
  match accepted with
  | true =>
      let s1 := { s with frames_encoded := (s.frames_encoded + 1) % 2 ^ 32 }
      (true, (deliverChunks payloads s1).1, (deliverChunks payloads s1).2)
  | false => (false, [], s)

/-- Modelled from the spec: `encoder::flush` (declared eznve.hpp line 45, body
not in the repository sources).  §4.2: on a successful drain, every pending
chunk is delivered via the callback and both counters are then reset to zero
(the source comments at lines 72-73 and 78-79 say the counters count "since
the beginning or the last flush"); on a failed drain it returns `false`, the
session remains open and nothing is delivered. -/
def flush (success : Bool) (pending : List Nat) (s : EncoderState) :
    Bool × List Delivery × EncoderState :=
  match success with
  | true =>
      (true, (deliverChunks pending s).1,
        { (deliverChunks pending s).2 with bytes_encoded := 0, frames_encoded := 0 })
  | false => (false, [], s)

/-- One observable operation on an open session, with the hardware oracle's
answers (acceptance and completed payloads) recorded alongside. -/
inductive Op
| submit (accepted : Bool) (flag : frame_flag) (payloads : List Nat)
| flushOp (success : Bool) (pending : List Nat)
| setCb (cb : Nat)
deriving DecidableEq, Repr

/-- Whether an operation is a callback replacement. -/
def isSetCb : Op → Bool
  | .setCb _ => true
  | _ => false

/-- Run one operation, returning the callback invocations it performed and the
state after. -/
def runOp (op : Op) (s : EncoderState) : List Delivery × EncoderState :=
  match op with
  | .submit accepted flag payloads => (submit_frame accepted flag payloads s).2
  | .flushOp success pending => (flush success pending s).2
  | .setCb cb => ([], set_callback cb s)

/-- Run a sequence of operations, concatenating the callback invocations in
the order they happen. -/
def runOps (ops : List Op) (s : EncoderState) : List Delivery × EncoderState :=
  match ops with
  | [] => ([], s)
  | op :: rest =>
      ((runOp op s).1 ++ (runOps rest (runOp op s).2).1,
        (runOps rest (runOp op s).2).2)

/-- Number of completed chunks the hardware hands back during an operation. -/
def opChunkCount : Op → Nat
  | .submit true _ payloads => payloads.length
  | .submit false _ _ => 0
  | .flushOp true pending => pending.length
  | .flushOp false _ => 0
  | .setCb _ => 0

/-- Total completed chunks over a sequence of operations. -/
def opsChunkCount (ops : List Op) : Nat := (ops.map opChunkCount).sum

/-! ### Move construction and teardown -/

/-- `encoder(encoder&&) noexcept = default;` (eznve.hpp line 41): the
defaulted move constructor move-constructs each member in turn.  For the
scalar members — `CUdeviceptr input_buffer`, the two `uint2`s, the three
`void*` handles and both counters — a member move is a copy that leaves the
source member unchanged; `std::unique_ptr pbuf` is transferred, leaving the
source null, and the `std::move_only_function data_cb` is taken, leaving the
source empty.  Returns (moved-from object, newly constructed object). -/
def moveConstruct (s : EncoderState) : EncoderState × EncoderState :=
  ({ s with pbuf := Option.none, data_cb := 0 }, s)

/-- One resource release performed during teardown, carrying the identity of
the released resource. -/
inductive teardown_step
| unregister_input (h : Nat)
| destroy_out_stream (h : Nat)
| destroy_session (h : Nat)
| release_scratch (p : Nat)
deriving DecidableEq, Repr

/-- Modelled from the spec: `encoder::~encoder()` (declared eznve.hpp line 36,
body not in the repository sources).  §4.1 `close`: "unregisters the input
buffer, destroys the output stream, destroys the session handle, releases the
scratch buffer" — in that order.  Each handle release is guarded on the
handle being non-null (the reading most favourable to teardown safety; for
the `unique_ptr` the guard is C++ semantics).  Returns the list of resource
releases the destructor performs, in order. -/
def teardown (s : EncoderState) : List teardown_step :=
  (if s.in_registration ≠ 0 then [teardown_step.unregister_input s.in_registration] else []) ++
  (if s.out_stream ≠ 0 then [teardown_step.destroy_out_stream s.out_stream] else []) ++
  (if s.session ≠ 0 then [teardown_step.destroy_session s.session] else []) ++
  (match s.pbuf with
   | some p => [teardown_step.release_scratch p]
   | Option.none => [])

/-- A successfully-opened session with concrete distinct non-null handles
(callback 1, input buffer 2, registration 3, output stream 4, session 5,
scratch allocation 9), 1920×1080 at 30000/1001 fps. -/
def demoSession : EncoderState :=
  { data_cb := 1, pbuf := some 9, input_buffer := 2, dims := (1920, 1080),
    fps_ := (30000, 1001), in_registration := 3, out_stream := 4, session := 5,
    bytes_encoded := 0, frames_encoded := 0 }

/-! ### Chunk timestamping -/

/-- Modelled from the spec: the timestamp the chunk delivery path (§4.3, body
not in the repository sources) attaches to a chunk constructed when `i`
frames had been encoded before it — `i / frame_rate` seconds, expressed in
nanoseconds: with the exact rational frame rate `num/den`, that is
`i * (10^9 * den) / num` (integer floor division into the `uint64_t`
`chunk_info::timestamp` field). -/
def chunk_timestamp (num den i : Nat) : Nat := i * (1000000000 * den) / num

/-- Modelled from the spec: the duration attached to every chunk — one frame
period `den/num` seconds in nanoseconds, `10^9 * den / num` (floor division
into the `uint64_t` `chunk_info::duration` field). -/
def chunk_duration (num den : Nat) : Nat := 1000000000 * den / num

/-- Modelled from the spec: the chunks delivered within one flush cycle, in
delivery order — one chunk per encoded frame, delivered in submission order,
so the `i`-th delivered chunk (0-based running chunk counter since the last
reset) was produced with `i` frames encoded before it.  Each chunk carries
its payload length, its index, and the timestamp/duration above. -/
def flush_cycle_chunks (num den : Nat) (payloads : List Nat) : List chunk_info :=
  payloads.enum.map fun p =>
    { dataLen := p.2, index := p.1, timestamp := chunk_timestamp num den p.1,
      duration := chunk_duration num den }

/-! ### Helper lemmas -/

/-- The delivery path invokes the active callback once per payload, in
order. -/
theorem deliverChunks_fst (payloads : List Nat) (s : EncoderState) :
    (deliverChunks payloads s).1 = payloads.map fun len => ⟨s.data_cb, len⟩ := by
  induction payloads generalizing s with
  | nil => rfl
  | cons len rest ih => simp [deliverChunks, ih]

/-- The delivery path touches only `bytes_encoded`: every other field
survives. -/
theorem deliverChunks_snd_fields (payloads : List Nat) (s : EncoderState) :
    (deliverChunks payloads s).2.data_cb = s.data_cb ∧
    (deliverChunks payloads s).2.dims = s.dims ∧
    (deliverChunks payloads s).2.fps_ = s.fps_ ∧
    (deliverChunks payloads s).2.frames_encoded = s.frames_encoded ∧
    (deliverChunks payloads s).2.session = s.session := by
  induction payloads generalizing s with
  | nil => exact ⟨rfl, rfl, rfl, rfl, rfl⟩
  | cons len rest ih =>
      have h := ih { s with bytes_encoded := (s.bytes_encoded + len) % 2 ^ 64 }
      simpa [deliverChunks] using h

theorem deliverChunks_data_cb (payloads : List Nat) (s : EncoderState) :
    (deliverChunks payloads s).2.data_cb = s.data_cb :=
  (deliverChunks_snd_fields payloads s).1

theorem deliverChunks_dims (payloads : List Nat) (s : EncoderState) :
    (deliverChunks payloads s).2.dims = s.dims :=
  (deliverChunks_snd_fields payloads s).2.1

theorem deliverChunks_fps (payloads : List Nat) (s : EncoderState) :
    (deliverChunks payloads s).2.fps_ = s.fps_ :=
  (deliverChunks_snd_fields payloads s).2.2.1

theorem deliverChunks_frames (payloads : List Nat) (s : EncoderState) :
    (deliverChunks payloads s).2.frames_encoded = s.frames_encoded :=
  (deliverChunks_snd_fields payloads s).2.2.2.1

/-- No operation changes the dimensions or the exact frame rate. -/
theorem runOp_dims_fps (op : Op) (s : EncoderState) :
    (runOp op s).2.dims = s.dims ∧ (runOp op s).2.fps_ = s.fps_ := by
  cases op with
  | submit accepted flag payloads =>
      cases accepted <;>
        simp [runOp, submit_frame, deliverChunks_dims, deliverChunks_fps]
  | flushOp success pending =>
      cases success <;>
        simp [runOp, flush, deliverChunks_dims, deliverChunks_fps]
  | setCb cb => exact ⟨rfl, rfl⟩

/-- No sequence of operations changes the dimensions or the exact frame
rate. -/
theorem runOps_dims_fps (ops : List Op) (s : EncoderState) :
    (runOps ops s).2.dims = s.dims ∧ (runOps ops s).2.fps_ = s.fps_ := by
  induction ops generalizing s with
  | nil => exact ⟨rfl, rfl⟩
  | cons op rest ih =>
      have h1 := runOp_dims_fps op s
      have h2 := ih (runOp op s).2
      exact ⟨h2.1.trans h1.1, h2.2.trans h1.2⟩

/-- Running a concatenation of operation lists concatenates the delivery
traces. -/
theorem runOps_append (a b : List Op) (s : EncoderState) :
    runOps (a ++ b) s =
      ((runOps a s).1 ++ (runOps b (runOps a s).2).1,
        (runOps b (runOps a s).2).2) := by
  induction a generalizing s with
  | nil => simp [runOps]
  | cons op rest ih => simp [runOps, ih]

/-- Each operation performs one callback invocation per completed chunk. -/
theorem runOp_length (op : Op) (s : EncoderState) :
    (runOp op s).1.length = opChunkCount op := by
  cases op with
  | submit accepted flag payloads =>
      cases accepted <;> simp [runOp, submit_frame, opChunkCount, deliverChunks_fst]
  | flushOp success pending =>
      cases success <;> simp [runOp, flush, opChunkCount, deliverChunks_fst]
  | setCb cb => rfl

/-- A run performs exactly one callback invocation per completed chunk. -/
theorem runOps_length (ops : List Op) (s : EncoderState) :
    (runOps ops s).1.length = opsChunkCount ops := by
  induction ops generalizing s with
  | nil => rfl
  | cons op rest ih =>
      simp [runOps, opsChunkCount, runOp_length, ih (runOp op s).2]

/-- Without a `setCb`, an operation keeps the installed callback and sends
every delivery to it. -/
theorem runOp_cb (op : Op) (s : EncoderState) (h : ∀ c, op ≠ Op.setCb c) :
    (runOp op s).2.data_cb = s.data_cb ∧
    ∀ d ∈ (runOp op s).1, d.cb = s.data_cb := by
  cases op with
  | submit accepted flag payloads =>
      cases accepted <;>
        simp [runOp, submit_frame, deliverChunks_data_cb, deliverChunks_fst]
  | flushOp success pending =>
      cases success <;>
        simp [runOp, flush, deliverChunks_data_cb, deliverChunks_fst]
  | setCb cb => exact absurd rfl (h cb)

/-- Without a `setCb` anywhere in the sequence, the installed callback never
changes and every delivery of the run goes to it. -/
theorem runOps_cb (ops : List Op) (s : EncoderState)
    (h : ∀ c, Op.setCb c ∉ ops) :
    (runOps ops s).2.data_cb = s.data_cb ∧
    ∀ d ∈ (runOps ops s).1, d.cb = s.data_cb := by
  induction ops generalizing s with
  | nil => exact ⟨rfl, by simp [runOps]⟩
  | cons op rest ih =>
      have hop : ∀ c, op ≠ Op.setCb c := by
        intro c hc
        exact h c (by simp [hc])
      have hrest : ∀ c, Op.setCb c ∉ rest := fun c hc =>
        h c (List.mem_cons_of_mem _ hc)
      have h1 := runOp_cb op s hop
      have h2 := ih (runOp op s).2 hrest
      refine ⟨h2.1.trans h1.1, ?_⟩
      intro d hd
      simp only [runOps, List.mem_append] at hd
      rcases hd with hd | hd
      · exact h1.2 d hd
      · exact (h2.2 d hd).trans h1.1

/-- Consecutive chunk timestamps differ by at least one nanosecond unit when
the frame rate is positive and at most one frame per nanosecond. -/
theorem chunk_timestamp_succ (num den : Nat) (hn : 0 < num)
    (hr : num ≤ 1000000000 * den) (k : Nat) :
    chunk_timestamp num den k < chunk_timestamp num den (k + 1) := by
  have hsplit : (k + 1) * (1000000000 * den) =
      k * (1000000000 * den) + 1000000000 * den := by ring
  have h1 : k * (1000000000 * den) + num ≤ (k + 1) * (1000000000 * den) := by
    omega
  have h2 : (k * (1000000000 * den) + num) / num ≤
      ((k + 1) * (1000000000 * den)) / num := Nat.div_le_div_right h1
  have h3 : (k * (1000000000 * den) + num) / num =
      k * (1000000000 * den) / num + 1 := Nat.add_div_right _ hn
  unfold chunk_timestamp
  omega

/-- Chunk timestamps are strictly monotone in the frame count. -/
theorem chunk_timestamp_strictMono (num den : Nat) (hn : 0 < num)
    (hr : num ≤ 1000000000 * den) {i j : Nat} (hij : i < j) :
    chunk_timestamp num den i < chunk_timestamp num den j :=
  strictMono_nat_of_lt_succ (chunk_timestamp_succ num den hn hr) hij

/-- A chunk's timestamp equals frame-count times duration up to the
accumulated floor-division remainders: the defect is below one nanosecond
unit per frame. -/
theorem chunk_timestamp_near (num den : Nat) (hn : 0 < num) (i : Nat) :
    i * chunk_duration num den ≤ chunk_timestamp num den i ∧
    chunk_timestamp num den i ≤ i * chunk_duration num den + i := by
  constructor
  · rw [chunk_timestamp, chunk_duration, Nat.le_div_iff_mul_le hn]
    calc i * ((1000000000 * den) / num) * num
        = i * ((1000000000 * den) / num * num) := by ring
      _ ≤ i * (1000000000 * den) :=
          Nat.mul_le_mul_left i (Nat.div_mul_le_self _ num)
  · have hC : i * (1000000000 * den) =
        num * (i * ((1000000000 * den) / num)) + i * (1000000000 * den % num) := by
      conv_lhs => rw [← Nat.div_add_mod (1000000000 * den) num]
      ring
    have hdiv : i * (1000000000 * den) / num =
        i * ((1000000000 * den) / num) + i * (1000000000 * den % num) / num := by
      rw [hC, Nat.mul_add_div hn]
    have hrem : i * (1000000000 * den % num) / num ≤ i := by
      have hle : i * (1000000000 * den % num) ≤ i * num :=
        Nat.mul_le_mul_left i (Nat.le_of_lt (Nat.mod_lt _ hn))
      have := Nat.div_le_div_right (c := num) hle
      rwa [Nat.mul_div_cancel _ hn] at this
    rw [chunk_timestamp, chunk_duration, hdiv]
    omega

theorem flush_cycle_chunks_length (num den : Nat) (payloads : List Nat) :
    (flush_cycle_chunks num den payloads).length = payloads.length := by
  simp [flush_cycle_chunks]

/-- The `k`-th chunk of a flush cycle carries index `k`, the timestamp for
`k` prior frames, and the one-frame duration. -/
theorem flush_cycle_chunks_get (num den : Nat) (payloads : List Nat) (k : Nat)
    (hk : k < (flush_cycle_chunks num den payloads).length) :
    ((flush_cycle_chunks num den payloads).get ⟨k, hk⟩).index = k ∧
    ((flush_cycle_chunks num den payloads).get ⟨k, hk⟩).timestamp =
      chunk_timestamp num den k ∧
    ((flush_cycle_chunks num den payloads).get ⟨k, hk⟩).duration =
      chunk_duration num den := by
  have hk1 : k < payloads.enum.length := by
    simpa [flush_cycle_chunks] using hk
  simp [flush_cycle_chunks, List.get_eq_getElem, List.getElem_map]

/-- Scenario A of the spec: `demoSession` (1920×1080 at 30000/1001 fps) after
30 accepted frame submissions with no IDR flag and no flush. -/
def scenarioA : EncoderState :=
  (runOps (List.replicate 30 (Op.submit true frame_flag.none []))
    demoSession).2

/-! ### Claim theorems -/

/-- C1: for every sequence of accepted frame submissions followed by one
successful flush, the flush returns `true`, hands every buffered payload to
the active callback in delivery order, and `total_frames()` and
`total_bytes()` are both zero immediately after it returns. -/
theorem flush_after_submits_delivers_and_resets
    (subs : List (frame_flag × List Nat)) (pending : List Nat)
    (s : EncoderState) :
    (flush true pending
        (runOps (subs.map fun p => Op.submit true p.1 p.2) s).2).1 = true ∧
    (flush true pending
        (runOps (subs.map fun p => Op.submit true p.1 p.2) s).2).2.1 =
      pending.map (fun len =>
        ⟨((runOps (subs.map fun p => Op.submit true p.1 p.2) s).2).data_cb,
          len⟩) ∧
    (total_frames (flush true pending
        (runOps (subs.map fun p => Op.submit true p.1 p.2) s).2).2.2).1 = 0 ∧
    (total_bytes (flush true pending
        (runOps (subs.map fun p => Op.submit true p.1 p.2) s).2).2.2).1 = 0 := by
  exact ⟨rfl, deliverChunks_fst pending _, rfl, rfl⟩

/-- C2: when the hardware accepts, `submit_frame` returns `true` and
`total_frames()` grows by exactly one (the counter is a `uint32_t`, so this
needs it not to be at its wrap point); when the hardware rejects, the call
returns `false`, performs no delivery, and leaves the entire state — both
counters and the open session handle included — unchanged. -/
theorem submit_frame_accept_increments_reject_unchanged (flag : frame_flag)
    (payloads : List Nat) (s : EncoderState)
    (h : s.frames_encoded + 1 < 2 ^ 32) :
    (submit_frame true flag payloads s).1 = true ∧
    (total_frames (submit_frame true flag payloads s).2.2).1 =
      (total_frames s).1 + 1 ∧
    submit_frame false flag payloads s = (false, [], s) := by
  refine ⟨rfl, ?_, rfl⟩
  show (deliverChunks payloads _).2.frames_encoded = s.frames_encoded + 1
  rw [deliverChunks_frames]
  exact Nat.mod_eq_of_lt h

theorem submit_frame_accept_increments_witness :
    (submit_frame true frame_flag.none [7] demoSession).1 = true ∧
    (total_frames (submit_frame true frame_flag.none [7] demoSession).2.2).1 =
      (total_frames demoSession).1 + 1 ∧
    submit_frame false frame_flag.none [7] demoSession =
      (false, [], demoSession) :=
  submit_frame_accept_increments_reject_unchanged frame_flag.none [7]
    demoSession (by decide)

/-- C3 fails on the code: `encoder(encoder&&) noexcept = default` (eznve.hpp
line 41) member-wise-moves the raw handles, which copies them and leaves the
moved-from object still holding them, so destroying both the moved-from and
the moved-to object releases the registration, output-stream and session
handles twice.  At the concrete session `demoSession` (session handle 5),
the combined teardown of the two objects left by a move construction
destroys session handle 5 twice — the spec requires each owned resource to
be released exactly once, with no design-triggered double teardown. -/
theorem default_move_then_destroy_double_releases :
    (teardown (moveConstruct demoSession).1 ++
        teardown (moveConstruct demoSession).2).count
      (teardown_step.destroy_session 5) = 2 ∧
    (teardown (moveConstruct demoSession).1 ++
        teardown (moveConstruct demoSession).2).count
      (teardown_step.unregister_input 3) = 2 ∧
    (teardown (moveConstruct demoSession).1 ++
        teardown (moveConstruct demoSession).2).count
      (teardown_step.release_scratch 9) = 1 := by
  decide

/-- C4: no number of submit/flush (or set-callback) calls changes what
`width()`, `height()` and `fps_exact()` return. -/
theorem dims_and_fps_immutable_under_ops (ops : List Op) (s : EncoderState) :
    (width (runOps ops s).2).1 = (width s).1 ∧
    (height (runOps ops s).2).1 = (height s).1 ∧
    (fps_exact (runOps ops s).2).1 = (fps_exact s).1 := by
  have h := runOps_dims_fps ops s
  exact ⟨by simp [width, h.1], by simp [height, h.1], by simp [fps_exact, h.2]⟩

/-- C5: for the chunks delivered within one flush cycle — frame rate
`num/den` positive and at most one frame per nanosecond unit — timestamps
strictly increase with delivery order, and each chunk's timestamp equals its
index times its duration up to the accumulated rounding of the nanosecond
time unit (a defect below one unit per counted frame). -/
theorem flush_cycle_timestamps_ordered (num den : Nat) (payloads : List Nat)
    (hn : 0 < num) (hr : num ≤ 1000000000 * den) :
    (∀ (i j : Nat) (hi : i < (flush_cycle_chunks num den payloads).length)
        (hj : j < (flush_cycle_chunks num den payloads).length), i < j →
        ((flush_cycle_chunks num den payloads).get ⟨i, hi⟩).timestamp <
          ((flush_cycle_chunks num den payloads).get ⟨j, hj⟩).timestamp) ∧
    (∀ (k : Nat) (hk : k < (flush_cycle_chunks num den payloads).length),
        ((flush_cycle_chunks num den payloads).get ⟨k, hk⟩).index *
            ((flush_cycle_chunks num den payloads).get ⟨k, hk⟩).duration ≤
          ((flush_cycle_chunks num den payloads).get ⟨k, hk⟩).timestamp ∧
        ((flush_cycle_chunks num den payloads).get ⟨k, hk⟩).timestamp ≤
          ((flush_cycle_chunks num den payloads).get ⟨k, hk⟩).index *
              ((flush_cycle_chunks num den payloads).get ⟨k, hk⟩).duration +
            ((flush_cycle_chunks num den payloads).get ⟨k, hk⟩).index) := by
  constructor
  · intro i j hi hj hij
    rw [(flush_cycle_chunks_get num den payloads i hi).2.1,
        (flush_cycle_chunks_get num den payloads j hj).2.1]
    exact chunk_timestamp_strictMono num den hn hr hij
  · intro k hk
    rw [(flush_cycle_chunks_get num den payloads k hk).1,
        (flush_cycle_chunks_get num den payloads k hk).2.1,
        (flush_cycle_chunks_get num den payloads k hk).2.2]
    exact chunk_timestamp_near num den hn k

theorem flush_cycle_timestamps_witness :
    ((flush_cycle_chunks 30000 1001 [10, 20]).get ⟨0, by decide⟩).timestamp <
      ((flush_cycle_chunks 30000 1001 [10, 20]).get ⟨1, by decide⟩).timestamp ∧
    ((flush_cycle_chunks 30000 1001 [10, 20]).get ⟨1, by decide⟩).index *
        ((flush_cycle_chunks 30000 1001 [10, 20]).get ⟨1, by decide⟩).duration ≤
      ((flush_cycle_chunks 30000 1001 [10, 20]).get ⟨1, by decide⟩).timestamp :=
  ⟨(flush_cycle_timestamps_ordered 30000 1001 [10, 20] (by decide)
      (by decide)).1 0 1 (by decide) (by decide) (by decide),
   ((flush_cycle_timestamps_ordered 30000 1001 [10, 20] (by decide)
      (by decide)).2 1 (by decide)).1⟩

/-- C6: replacing the callback mid-session redirects every subsequent
delivery to the new callback only: the run of `pre ++ set ++ post` delivers
the `pre` chunks first, every delivery produced after the replacement goes to
the new callback, and the `post` segment performs exactly one callback
invocation per completed chunk — so no chunk is handed to two callbacks. -/
theorem set_callback_redirects_subsequent_deliveries (pre post : List Op)
    (c : Nat) (s : EncoderState) (h : ∀ op ∈ post, isSetCb op = false) :
    (runOps (pre ++ Op.setCb c :: post) s).1 =
      (runOps pre s).1 ++
        (runOps post (set_callback c (runOps pre s).2)).1 ∧
    (∀ d ∈ (runOps post (set_callback c (runOps pre s).2)).1, d.cb = c) ∧
    (runOps post (set_callback c (runOps pre s).2)).1.length =
      opsChunkCount post := by
  have hno : ∀ c2, Op.setCb c2 ∉ post := by
    intro c2 hc2
    have := h _ hc2
    simp [isSetCb] at this
  refine ⟨?_, ?_, runOps_length post _⟩
  · rw [runOps_append]
    simp [runOps, runOp]
  · intro d hd
    have := (runOps_cb post (set_callback c (runOps pre s).2) hno).2 d hd
    simpa [set_callback] using this

theorem set_callback_redirects_witness :
    (runOps ([Op.submit true frame_flag.idr [7]] ++
        Op.setCb 2 :: [Op.submit true frame_flag.none [11]]) demoSession).1 =
      (runOps [Op.submit true frame_flag.idr [7]] demoSession).1 ++
        (runOps [Op.submit true frame_flag.none [11]]
          (set_callback 2
            (runOps [Op.submit true frame_flag.idr [7]] demoSession).2)).1 ∧
    (runOps [Op.submit true frame_flag.none [11]]
        (set_callback 2
          (runOps [Op.submit true frame_flag.idr [7]] demoSession).2)).1.length =
      opsChunkCount [Op.submit true frame_flag.none [11]] :=
  ⟨(set_callback_redirects_subsequent_deliveries
      [Op.submit true frame_flag.idr [7]] [Op.submit true frame_flag.none [11]]
      2 demoSession (by decide)).1,
   (set_callback_redirects_subsequent_deliveries
      [Op.submit true frame_flag.idr [7]] [Op.submit true frame_flag.none [11]]
      2 demoSession (by decide)).2.2⟩

/-- C7: every byte of the structure `pbuf_as<T>` returns — the first
`sizeof(T)` bytes of the scratch storage — is zero on return, whatever stale
contents the buffer held before the call. -/
theorem pbuf_as_returns_fully_zeroed (sizeofT : Nat) (buf : Nat → Nat)
    (i : Nat) (h : i < sizeofT) : pbuf_as_bytes sizeofT buf i = 0 := by
  simp [pbuf_as_bytes, h]

/-- Scratch contents left behind by an earlier marshalling call: every byte
stale at 255. -/
def staleBuf : Nat → Nat := fun _ => 255

theorem pbuf_as_returns_fully_zeroed_witness :
    pbuf_as_bytes 64 staleBuf 3 = 0 :=
  pbuf_as_returns_fully_zeroed 64 staleBuf 3 (by decide)

/-- C8: `time()` returns `total_frames() / fps()` with
`fps() = numerator/denominator` (doubles modelled as exact rationals), and a
session at 30000/1001 fps with 30 frames submitted and not yet flushed has
`total_frames() = 30` and `time() = 1.001` seconds. -/
theorem time_eq_total_frames_div_fps :
    (∀ s : EncoderState,
        (time s).1 = ((total_frames s).1 : ℚ) / (fps s).1 ∧
        (fps s).1 = (s.fps_.1 : ℚ) / (s.fps_.2 : ℚ)) ∧
    (total_frames scenarioA).1 = 30 ∧
    (time scenarioA).1 = 1001 / 1000 := by
  have h30 : (total_frames scenarioA).1 = 30 := by decide
  have hfps : scenarioA.fps_ = (30000, 1001) := by decide
  refine ⟨fun s => ⟨rfl, rfl⟩, h30, ?_⟩
  show ((total_frames scenarioA).1 : ℚ) / (fps scenarioA).1 = 1001 / 1000
  rw [h30]
  show (30 : ℚ) / ((scenarioA.fps_.1 : ℚ) / (scenarioA.fps_.2 : ℚ)) =
    1001 / 1000
  rw [hfps]
  norm_num

/-- One call to a const accessor, viewed by the state it leaves behind. -/
inductive Observer
| bufferO
| widthO
| heightO
| fpsO
| fpsExactO
| totalBytesO
| totalFramesO
| timeO
deriving DecidableEq, Repr

/-- The state after one observer call: the second component of the embedded
accessor. -/
def observeState (o : Observer) (s : EncoderState) : EncoderState :=
  match o with
  | .bufferO => (buffer s).2
  | .widthO => (width s).2
  | .heightO => (height s).2
  | .fpsO => (fps s).2
  | .fpsExactO => (fps_exact s).2
  | .totalBytesO => (total_bytes s).2
  | .totalFramesO => (total_frames s).2
  | .timeO => (time s).2

/-- C9: any number of observer-accessor calls, in any order, leaves every
field of the encoder state unchanged. -/
theorem observers_leave_state_unchanged (calls : List Observer)
    (s : EncoderState) :
    calls.foldl (fun st o => observeState o st) s = s := by
  induction calls generalizing s with
  | nil => rfl
  | cons o rest ih =>
      have h1 : observeState o s = s := by cases o <;> rfl
      simp [List.foldl_cons, h1, ih]

/-- C10: the unguarded `memset` of `pbuf_as<T>` writes byte offsets
`0..sizeof(T)-1`; every written offset lies inside the 2048-byte scratch
allocation if and only if `sizeof(T) ≤ 2048`. -/
theorem memset_within_scratch_iff (sizeofT : Nat) :
    (∀ i ∈ memset_offsets sizeofT, i < param_buffer_size) ↔
      sizeofT ≤ param_buffer_size := by
  simp only [memset_offsets, param_buffer_size, List.mem_range]
  constructor
  · intro h
    by_contra hgt
    exact absurd (h 2048 (by omega)) (by omega)
  · intro h i hi
    omega

theorem memset_within_scratch_iff_witness :
    ((∀ i ∈ memset_offsets 2048, i < param_buffer_size) ↔
      2048 ≤ param_buffer_size) ∧
    ((∀ i ∈ memset_offsets 2049, i < param_buffer_size) ↔
      2049 ≤ param_buffer_size) :=
  ⟨memset_within_scratch_iff 2048, memset_within_scratch_iff 2049⟩

end eznve
